import Mathlib

/-!
Verification of the playwright-smart-reporter analytics core against its
natural-language specification.

The per-test analyzers (`FlakinessAnalyzer`, `PerformanceAnalyzer`,
`RetryAnalyzer`, `StabilityScorer`) and the history reconciliation
(`mergeHistories`) ship in this repository only through their unit-test
files; the implementation modules themselves are not present.  Those
components are therefore modelled from the specification (each such
definition carries a doc comment starting `Modelled from the spec:`),
and cross-checked against the behaviour pinned by the repository's own
test files wherever the two speak about the same input.
`buildPlaywrightStyleAiPrompt` and `generateTrendChart` are embedded
directly from their sources.

Modelling conventions: millisecond durations and derived scores are
rationals (JS numbers restricted to the exact arithmetic the code
performs), timestamps are naturals (the code sorts ISO-8601 strings
chronologically), and `Math.round` is `⌊x + 1/2⌋`.
-/

/-- JavaScript `Math.round`: round half up, i.e. `⌊x + 1/2⌋`. -/
def jsRound (x : ℚ) : ℤ := ⌊x + 1/2⌋

/-- Outcome status of a single Playwright test. -/
inductive TestStatus
  | passed
  | failed
  | timedOut
  | skipped
deriving DecidableEq, Repr

/-- Severity band of a performance change. -/
inductive Severity
  | low
  | medium
  | high
deriving DecidableEq, Repr

/-- One persisted observation of a test in a prior run
(`TestHistoryEntry` in `src/types`). -/
structure TestHistoryEntry where
  passed : Bool
  duration : ℚ
  timestamp : ℕ
  retry : Option ℕ := none
  skipped : Option Bool := none
deriving DecidableEq, Repr

/-- Whether a history entry counts as skipped (`skipped` is optional). -/
def TestHistoryEntry.isSkipped (e : TestHistoryEntry) : Bool :=
  e.skipped.getD false

/-- `PerformanceMetrics` record produced by the performance analyzer. -/
structure PerformanceMetrics where
  averageDuration : ℚ
  currentDuration : ℚ
  percentChange : ℚ
  absoluteChange : ℚ
  threshold : ℚ
  isRegression : Bool
  isImprovement : Bool
  severity : Severity
deriving DecidableEq, Repr

/-- `RetryInfo` record produced by the retry analyzer. -/
structure RetryInfo where
  totalRetries : ℕ
  passedOnRetry : ℤ
  failedRetries : ℕ
  retryPattern : List Bool
  needsAttention : Bool
deriving DecidableEq, Repr

/-- Letter grade of a stability score. -/
inductive Grade
  | A
  | B
  | C
  | D
  | F
deriving DecidableEq, Repr

/-- `StabilityScore` record produced by the stability scorer. -/
structure StabilityScore where
  overall : ℤ
  flakiness : ℚ
  performance : ℚ
  reliability : ℚ
  grade : Grade
  needsAttention : Bool
deriving DecidableEq, Repr

/-- Per-test execution record handed to the analyzers, including the
optional annotations earlier analyzers may already have written
(`TestResultData` in `src/types`). -/
structure TestResultData where
  testId : String
  title : String
  file : String
  status : TestStatus
  duration : ℚ
  retry : ℕ
  flakinessScore : Option ℚ := none
  performanceTrend : Option String := none
  averageDuration : Option ℚ := none
  performanceMetrics : Option PerformanceMetrics := none
  retryInfo : Option RetryInfo := none
  stabilityScore : Option StabilityScore := none
deriving DecidableEq, Repr

namespace StabilityScorer

/-- Modelled from the spec: the flakiness component of `scoreTest`,
`100 × (1 − flakinessScore)`, defaulting to `100` when `flakinessScore`
is absent (first observation). -/
def flakinessComponent (t : TestResultData) : ℚ :=
  match t.flakinessScore with
  | some fs => 100 * (1 - fs)
  | none => 100

/-- Modelled from the spec: the performance component of `scoreTest`:
improvement `100`; regression `75/50/25` by severity; otherwise
(stable or baseline) `90`. -/
def performanceComponent (t : TestResultData) : ℚ :=
  match t.performanceMetrics with
  | some m =>
      if m.isImprovement then 100
      else if m.isRegression then
        match m.severity with
        | Severity.low => 75
        | Severity.medium => 50
        | Severity.high => 25
      else 90
  | none => 90

/-- Total retries recorded on the test's `retryInfo` (0 when absent). -/
def totalRetriesOf (t : TestResultData) : ℕ :=
  match t.retryInfo with
  | some ri => ri.totalRetries
  | none => 0

/-- Failed retries recorded on the test's `retryInfo` (0 when absent). -/
def failedRetriesOf (t : TestResultData) : ℕ :=
  match t.retryInfo with
  | some ri => ri.failedRetries
  | none => 0

/-- Modelled from the spec: the reliability component of `scoreTest`:
skipped `75` (neutral); passed `max 0 (100 − 15×totalRetries)`;
failed/timedOut `max 0 (100 − 30×failedRetries)`. -/
def reliabilityComponent (t : TestResultData) : ℚ :=
  match t.status with
  | TestStatus.skipped => 75
  | TestStatus.passed => max 0 (100 - 15 * (totalRetriesOf t : ℚ))
  | TestStatus.failed => max 0 (100 - 30 * (failedRetriesOf t : ℚ))
  | TestStatus.timedOut => max 0 (100 - 30 * (failedRetriesOf t : ℚ))

/-- Grade bands: `A ≥ 90`, `B ≥ 80`, `C ≥ 70`, `D ≥ 60`, else `F`. -/
def gradeOf (overall : ℤ) : Grade :=
  if overall ≥ 90 then Grade.A
  else if overall ≥ 80 then Grade.B
  else if overall ≥ 70 then Grade.C
  else if overall ≥ 60 then Grade.D
  else Grade.F

/-- Modelled from the spec: `StabilityScorer.scoreTest` (implementation
module absent from the repository; behaviour cross-checked against its
unit tests).  `overall = round(flakiness×0.4 + performance×0.3 +
reliability×0.3)`; `needsAttention = overall < threshold`. -/
def scoreTest (t : TestResultData) (threshold : ℤ := 70) : StabilityScore :=
  let flakiness := flakinessComponent t
  let performance := performanceComponent t
  let reliability := reliabilityComponent t
  let overall := jsRound (flakiness * (4/10) + performance * (3/10) + reliability * (3/10))
  { overall := overall
    flakiness := flakiness
    performance := performance
    reliability := reliability
    grade := gradeOf overall
    needsAttention := decide (overall < threshold) }

/-- Modelled from the spec: `getSummary` renders
`"Grade {g} ({overall}/100) - ..."` with a stable or needs-attention tail. -/
def getSummary (s : StabilityScore) : String :=
  let g := match s.grade with
    | Grade.A => "A"
    | Grade.B => "B"
    | Grade.C => "C"
    | Grade.D => "D"
    | Grade.F => "F"
  let tail := if s.needsAttention then "⚠️ Needs Attention" else "✅ Stable"
  "Grade " ++ g ++ " (" ++ toString s.overall ++ "/100) - " ++ tail

end StabilityScorer

namespace FlakinessAnalyzer

/-- History entries that actually ran (non-skipped). -/
def usableHistory (history : List TestHistoryEntry) : List TestHistoryEntry :=
  history.filter (fun e => !e.isSkipped)

/-- Modelled from the spec: `FlakinessAnalyzer.analyze` (implementation
module absent from the repository) sets `flakinessScore` to the
proportion of non-skipped historical entries that failed, and leaves it
absent when there is no usable history. -/
def analyze (_t : TestResultData) (history : List TestHistoryEntry) : Option ℚ :=
  let usable := usableHistory history
  if usable.isEmpty then none
  else some (((usable.filter (fun e => !e.passed)).length : ℚ) / usable.length)

end FlakinessAnalyzer

namespace PerformanceAnalyzer

/-- Result fields the performance analyzer writes onto the test record. -/
structure PerfOutcome where
  performanceTrend : String
  averageDuration : Option ℚ
  performanceMetrics : Option PerformanceMetrics
deriving DecidableEq, Repr

/-- Modelled from the spec and the analyzer's unit tests: severity of a
percent change.  The spec sentence puts the boundary `|percentChange| = 50`
in the `high` band, but `performance-analyzer.test.ts` pins `'medium'`
for a 50% regression and titles the high band "over 50%", so the upper
boundary is strict. -/
def severityOf (pc : ℚ) : Severity :=
  if |pc| < 25 then Severity.low
  else if |pc| ≤ 50 then Severity.medium
  else Severity.high

/-- Modelled from the spec: `PerformanceAnalyzer.analyze` (implementation
module absent from the repository; behaviour cross-checked against its
unit tests).  Skipped tests and tests without a usable baseline get a
marker trend and no metrics; otherwise the percent change against the
mean non-skipped historical duration drives the trend and metrics. -/
def analyze (t : TestResultData) (history : List TestHistoryEntry)
    (threshold : ℚ := 1/5) : PerfOutcome :=
  if t.status = TestStatus.skipped then
    ⟨"→ Skipped", none, none⟩
  else
    let usable := FlakinessAnalyzer.usableHistory history
    if usable.isEmpty then
      ⟨"→ Baseline", none, none⟩
    else
      let average := ((usable.map (·.duration)).sum) / usable.length
      let percentChange := (t.duration - average) / average * 100
      let metrics : PerformanceMetrics :=
        { averageDuration := average
          currentDuration := t.duration
          percentChange := percentChange
          absoluteChange := t.duration - average
          threshold := threshold
          isRegression := decide (percentChange > threshold * 100)
          isImprovement := decide (percentChange < -(threshold * 100))
          severity := severityOf percentChange }
      let trend :=
        if percentChange > threshold * 100 then
          "↑ " ++ toString (jsRound percentChange) ++ "% slower"
        else if percentChange < -(threshold * 100) then
          "↓ " ++ toString (jsRound (-percentChange)) ++ "% faster"
        else "→ Stable"
      ⟨trend, some average, some metrics⟩

/-- Modelled from the spec: `isSlow` is a pure predicate on the trend's
leading marker. -/
def isSlow (trend : Option String) : Bool :=
  (trend.getD "").startsWith "↑"

/-- Modelled from the spec: `isFaster` is a pure predicate on the trend's
leading marker. -/
def isFaster (trend : Option String) : Bool :=
  (trend.getD "").startsWith "↓"

/-- Modelled from the spec: `getStatus` maps a trend string (or
undefined) to `slow`/`fast`/`stable`, defaulting to `stable`. -/
def getStatus (trend : Option String) : String :=
  if isSlow trend then "slow"
  else if isFaster trend then "fast"
  else "stable"

/-- Modelled from the spec: `calculateSmartThreshold`, the
magnitude-adaptive alternative threshold. -/
def calculateSmartThreshold (avgDuration : ℚ) : ℚ :=
  if avgDuration < 100 then 1/2
  else if avgDuration < 1000 then 3/10
  else if avgDuration < 10000 then 1/5
  else 3/20

end PerformanceAnalyzer

namespace RetryAnalyzer

/-- Number of historical entries that recorded at least one retry. -/
def retriedCount (history : List TestHistoryEntry) : ℕ :=
  (history.filter (fun e => 1 ≤ e.retry.getD 0)).length

/-- Modelled from the spec: `RetryAnalyzer.analyze` (implementation
module absent from the repository; behaviour cross-checked against its
unit tests).  `needsAttention` flags the current retry count reaching
the threshold, or more than half of the historical entries having
required at least one retry. -/
def analyze (t : TestResultData) (history : List TestHistoryEntry)
    (threshold : ℕ := 3) : RetryInfo :=
  let totalRetries := t.retry
  let ultimatelyPassed := t.status = TestStatus.passed
  let passedOnRetry : ℤ :=
    if t.status = TestStatus.passed then
      (if 0 < totalRetries then (totalRetries : ℤ) else -1)
    else -1
  let failedRetries :=
    match t.status with
    | TestStatus.failed => totalRetries
    | TestStatus.timedOut => totalRetries
    | _ => 0
  { totalRetries := totalRetries
    passedOnRetry := passedOnRetry
    failedRetries := failedRetries
    retryPattern := List.replicate totalRetries false ++ [decide ultimatelyPassed]
    needsAttention :=
      decide (threshold ≤ totalRetries) ||
      decide (history.length < 2 * retriedCount history) }

/-- Modelled from the spec: `getRetrySummary` renders the retry ladder;
`"No retries"` when `retryInfo` is absent or records zero retries. -/
def getRetrySummary (t : TestResultData) : String :=
  match t.retryInfo with
  | none => "No retries"
  | some ri =>
      if ri.totalRetries = 0 then "No retries"
      else if 0 ≤ ri.passedOnRetry then
        "Passed on retry " ++ toString (ri.passedOnRetry + 1) ++ "/" ++
          toString (ri.totalRetries + 1)
      else "Failed after " ++ toString (ri.totalRetries + 1) ++ " attempts"

/-- Modelled from the spec: `calculateRetryRate`, the fraction of tests
with `retry > 0` (`0` for an empty set). -/
def calculateRetryRate (results : List TestResultData) : ℚ :=
  if results.isEmpty then 0
  else ((results.filter (fun t => 0 < t.retry)).length : ℚ) / results.length

/-- Modelled from the spec: `getProblematicTests` keeps tests whose
`retryInfo.needsAttention` is true. -/
def getProblematicTests (results : List TestResultData) : List TestResultData :=
  results.filter (fun t => (t.retryInfo.map (·.needsAttention)).getD false)

end RetryAnalyzer

/-- Suite-level aggregate statistics produced by
`StabilityScorer.calculateSuiteStats`. -/
structure SuiteStats where
  total : ℕ
  passed : ℕ
  failed : ℕ
  skipped : ℕ
  flaky : ℕ
  slow : ℕ
  passRate : ℤ
  averageStability : ℚ
deriving DecidableEq, Repr

namespace StabilityScorer

/-- Modelled from the spec: `calculateSuiteStats` counts by status, flags
flaky (`flakinessScore ≥ 0.3`) and slow (trend starts with the slower
marker) tests, and computes `passRate` and `averageStability` with their
zero-denominator special cases. -/
def calculateSuiteStats (results : List TestResultData) : SuiteStats :=
  let passed := (results.filter (fun t => t.status = TestStatus.passed)).length
  let failed := (results.filter (fun t =>
    t.status = TestStatus.failed ∨ t.status = TestStatus.timedOut)).length
  let skipped := (results.filter (fun t => t.status = TestStatus.skipped)).length
  let flaky := (results.filter (fun t =>
    match t.flakinessScore with
    | some fs => decide (3/10 ≤ fs)
    | none => false)).length
  let slow := (results.filter (fun t =>
    PerformanceAnalyzer.isSlow t.performanceTrend)).length
  let scored := results.filterMap (·.stabilityScore)
  { total := results.length
    passed := passed
    failed := failed
    skipped := skipped
    flaky := flaky
    slow := slow
    passRate :=
      if passed + failed = 0 then 0
      else jsRound ((passed : ℚ) / (passed + failed) * 100)
    averageStability :=
      if scored.isEmpty then 0
      else ((scored.map (·.overall)).sum : ℚ) / scored.length }

/-- Modelled from the spec: `getProblematicTests` keeps tests whose
`stabilityScore.needsAttention` is true. -/
def getProblematicTests (results : List TestResultData) : List TestResultData :=
  results.filter (fun t => (t.stabilityScore.map (·.needsAttention)).getD false)

end StabilityScorer

/-- Metadata of one run in the persisted history (`runId` plus timestamp). -/
structure RunMeta where
  runId : String
  timestamp : ℕ
deriving DecidableEq, Repr

/-- Per-run aggregate counters persisted in the history file. -/
structure RunSummary where
  runId : String
  timestamp : ℕ
  total : ℕ
  passed : ℕ
  failed : ℕ
  skipped : ℕ
  flaky : ℕ
  slow : ℕ
  duration : ℚ
  passRate : ℤ
deriving DecidableEq, Repr

/-- The persisted history structure: runs, a per-test map of history
entries, and run summaries.  The `tests` map is an association list with
unique keys (a JSON object). -/
structure TestHistory where
  runs : List RunMeta
  tests : List (String × List TestHistoryEntry)
  summaries : List RunSummary
deriving DecidableEq, Repr

/-- Ascending-by-timestamp comparison used by every merge sort step. -/
def tsLe {α : Type} (key : α → ℕ) (a b : α) : Prop := key a ≤ key b

instance {α : Type} (key : α → ℕ) : DecidableRel (tsLe key) :=
  fun a b => Nat.decLe (key a) (key b)

instance {α : Type} (key : α → ℕ) : IsTotal α (tsLe key) :=
  ⟨fun a b => Nat.le_total (key a) (key b)⟩

instance {α : Type} (key : α → ℕ) : IsTrans α (tsLe key) :=
  ⟨fun _ _ _ => Nat.le_trans⟩

/-- Stable ascending sort by timestamp (the code sorts each merged
collection ascending by timestamp with a stable sort). -/
def sortByTs {α : Type} (key : α → ℕ) (l : List α) : List α :=
  l.insertionSort (tsLe key)

/-- Keep only the last `n` elements of a list (the retention cap applied
after sorting ascending by timestamp). -/
def keepLast {α : Type} (n : ℕ) (l : List α) : List α :=
  l.drop (l.length - n)

/-- De-duplicate runs by `runId`, keeping the first occurrence.
(The spec leaves first-seen-wins vs last-seen-wins open; the model picks
first-seen-wins, which the claims never distinguish.) -/
def dedupeByRunId : List RunMeta → List RunMeta :=
  go []
where
  /-- Walk the list remembering the `runId`s already kept. -/
  go (seen : List String) : List RunMeta → List RunMeta
    | [] => []
    | r :: rs =>
        if r.runId ∈ seen then go seen rs
        else r :: go (r.runId :: seen) rs

/-- All runs of all surviving sources, in source order. -/
def allRuns (sources : List TestHistory) : List RunMeta :=
  (sources.map (·.runs)).flatten

/-- All summaries of all surviving sources, in source order. -/
def allSummaries (sources : List TestHistory) : List RunSummary :=
  (sources.map (·.summaries)).flatten

/-- All history entries recorded for one test id across sources. -/
def allEntries (sources : List TestHistory) (testId : String) :
    List TestHistoryEntry :=
  (sources.map (fun s => ((s.tests.find? (fun p => p.1 = testId)).map Prod.snd).getD [])).flatten

/-- First-seen-wins de-duplication of the test ids appearing across
sources. -/
def allTestIds : List TestHistory → List String :=
  fun sources => go [] ((sources.map (fun s => s.tests.map Prod.fst)).flatten)
where
  /-- Walk the id list remembering the ids already kept. -/
  go (seen : List String) : List String → List String
    | [] => []
    | k :: ks => if k ∈ seen then go seen ks else k :: go (k :: seen) ks

/-- Modelled from the spec: the pure reconciliation step of
`mergeHistories` (implementation absent from the repository; behaviour
cross-checked against `smart-reporter.test.ts`).  Runs are unioned,
de-duplicated by `runId`, sorted ascending by timestamp and capped at
`maxHistoryRuns`; each test's entry sequence and the summaries are
unioned, sorted and capped the same way. -/
def reconcileHistories (sources : List TestHistory) (maxHistoryRuns : ℕ) :
    TestHistory :=
  { runs := keepLast maxHistoryRuns
      (sortByTs (·.timestamp) (dedupeByRunId (allRuns sources)))
    tests := (allTestIds sources).map (fun k =>
      (k, keepLast maxHistoryRuns (sortByTs (·.timestamp) (allEntries sources k))))
    summaries := keepLast maxHistoryRuns
      (sortByTs (·.timestamp) (allSummaries sources)) }

/-- What reading one source path produced: the file was missing, its
content did not parse, or it parsed to a history structure. -/
inductive SourceRead
  | missing
  | unparseable
  | ok (h : TestHistory)
deriving DecidableEq, Repr

/-- The parsed history of a surviving source. -/
def SourceRead.parsed : SourceRead → Option TestHistory
  | SourceRead.ok h => some h
  | _ => none

/-- Observable effects of one `mergeHistories` call: warnings logged for
missing sources, errors logged for unparseable sources, and the
destination writes performed (in order). -/
structure MergeEffects where
  warnings : ℕ
  errors : ℕ
  writes : List TestHistory
deriving DecidableEq, Repr

/-- Modelled from the spec: `mergeHistories(sources, destination,
maxHistoryRuns = 10)` (implementation absent from the repository;
behaviour cross-checked against `smart-reporter.test.ts`).  A missing
source logs a warning and is skipped; an unparseable source logs an
error and is skipped; the destination receives exactly one write, of the
reconciliation of the surviving sources, after the full structure is
built.  Failure never propagates: the model is a total function of the
source read outcomes. -/
def mergeHistories (sources : List SourceRead) (maxHistoryRuns : ℕ := 10) :
    MergeEffects :=
  { warnings := (sources.filter (fun s => s = SourceRead.missing)).length
    errors := (sources.filter (fun s => s = SourceRead.unparseable)).length
    writes := [reconcileHistories (sources.filterMap SourceRead.parsed) maxHistoryRuns] }

/-- `a` occurs as a substring of `b` (JavaScript `b.includes(a)`),
decided on the underlying character lists. -/
def jsIncludes (b a : String) : Bool := decide (a.toList <:+: b.toList)

/-- JavaScript `m.includes('\n')`: the string spans several lines. -/
def isMultiline (m : String) : Bool := m.toList.contains '\n'

/-- First-seen-wins de-duplication of a string list (the insertion-order
semantics of a JavaScript `Set`). -/
def dedupFirst : List String → List String :=
  go []
where
  /-- Walk the list remembering the strings already kept. -/
  go (seen : List String) : List String → List String
    | [] => []
    | x :: xs => if x ∈ seen then go seen xs else x :: go (x :: seen) xs

/-- Embedded from the source: `pickCopyPromptErrors` keeps multiline
errors, and keeps one-line errors that are not included as a substring
of any other error text.  The deletion pass runs every formatted error
against every one-line candidate, the candidate itself included. -/
def pickCopyPromptErrors (formattedErrors : List String) : List String :=
  let oneLine := dedupFirst (formattedErrors.filter
    (fun m => decide (m ≠ "") && !(isMultiline m)))
  let survivors := formattedErrors.foldl
    (fun ol e => ol.filter (fun c => !(jsIncludes e c))) oneLine
  formattedErrors.filter
    (fun m => decide (m ≠ "") && (isMultiline m || decide (m ∈ survivors)))

/-- After `ESC [` and the digit/semicolon run, the sequence must close
with `m`. -/
def csiAfterBracket : List Char → Option (List Char)
  | [] => none
  | d :: rest => if d = 'm' then some rest else none

/-- One step of the ANSI-escape scanner: given the characters after an
`ESC`, recognise `[[0-9;]*m` and return the remainder. -/
def csiTail (cs : List Char) : Option (List Char) :=
  match cs with
  | [] => none
  | c :: cs2 =>
      if c = '[' then
        csiAfterBracket (cs2.dropWhile (fun d => d.isDigit || d = ';'))
      else none

theorem length_dropWhile_le {α : Type} (p : α → Bool) (l : List α) :
    (l.dropWhile p).length ≤ l.length := by
  induction l with
  | nil => simp
  | cons a l ih =>
      by_cases h : p a
      · rw [List.dropWhile_cons_of_pos h]
        exact Nat.le_succ_of_le ih
      · rw [List.dropWhile_cons_of_neg h]

theorem csiTail_length {cs rest : List Char} (h : csiTail cs = some rest) :
    rest.length < cs.length := by
  cases cs with
  | nil => simp [csiTail] at h
  | cons c cs2 =>
      simp only [csiTail] at h
      by_cases hc : c = '['
      · rw [if_pos hc] at h
        cases hdw : cs2.dropWhile (fun d => d.isDigit || d = ';') with
        | nil => rw [hdw] at h; simp [csiAfterBracket] at h
        | cons d rest2 =>
            rw [hdw] at h
            simp only [csiAfterBracket] at h
            by_cases hd : d = 'm'
            · rw [if_pos hd] at h
              simp only [Option.some.injEq] at h
              subst h
              have h1 : rest2.length + 1 ≤ cs2.length := by
                have h2 := length_dropWhile_le (fun d => d.isDigit || d = ';') cs2
                rw [hdw] at h2
                simpa using h2
              simp only [List.length_cons]
              omega
            · rw [if_neg hd] at h; simp at h
      · rw [if_neg hc] at h
        simp at h

/-- Embedded from the source: `stripAnsi` removes every
`ESC [ [0-9;]* m` colour sequence (the regex `\x1b\[[0-9;]*m`). -/
def stripAnsiChars : List Char → List Char
  | [] => []
  | c :: cs =>
      if c = '\u001b' then
        match h : csiTail cs with
        | some rest => stripAnsiChars rest
        | none => c :: stripAnsiChars cs
      else c :: stripAnsiChars cs
termination_by l => l.length
decreasing_by
  · exact Nat.lt_succ_of_lt (csiTail_length h)
  · simp
  · simp

/-- String wrapper of `stripAnsiChars`. -/
def stripAnsi (s : String) : String := ⟨stripAnsiChars s.data⟩

/-- JavaScript `s.slice(0, n)` for `0 ≤ n`. -/
def jsSlice (s : String) (n : ℕ) : String := ⟨s.data.take n⟩

/-- The instruction header of the Playwright-style AI prompt. -/
def PLAYWRIGHT_COPY_PROMPT_INSTRUCTIONS : String :=
  "# Instructions\n\n- Following Playwright test failed.\n- Explain why, be concise, respect Playwright best practices.\n- Provide a snippet of code with the fix, if possible.\n"

/-- `lines.join('\n')`. -/
def joinLines : List String → String
  | [] => ""
  | [a] => a
  | a :: rest => a ++ "\n" ++ joinLines rest

/-- The inputs `buildPlaywrightStyleAiPrompt` derives from the Playwright
config, test and result before assembling the prompt.  The attachment
reads, stdout/stderr collection and the code frame are file-system reads
in the source; they enter the model as the text they produced (absent
when the source produced none). -/
structure PromptInputs where
  testName : String
  testFile : String
  line : ℕ
  column : ℕ
  stdout : Option String := none
  stderr : Option String := none
  formattedErrors : List String := []
  errorContext : Option String := none
  frame : Option String := none

/-- Embedded from the source: `buildPlaywrightStyleAiPrompt` assembles
the instruction header, test info, optional stdout/stderr blocks, the
surviving error texts, the optional page-snapshot attachment and the
optional code frame, then truncates the joined prompt to 200000
characters plus a truncation marker. -/
def buildPlaywrightStyleAiPrompt (inp : PromptInputs) : String :=
  let testInfo := joinLines
    ["- Name: " ++ inp.testName,
     "- Location: " ++ inp.testFile ++ ":" ++ toString inp.line ++ ":" ++
       toString inp.column]
  let errorsForPrompt := pickCopyPromptErrors inp.formattedErrors
  if errorsForPrompt.isEmpty then ""
  else
    let lines := [PLAYWRIGHT_COPY_PROMPT_INSTRUCTIONS, "# Test info", "", testInfo]
    let lines := lines ++
      (match inp.stdout with
       | some s => ["", "# Stdout", "", "```", stripAnsi s, "```"]
       | none => [])
    let lines := lines ++
      (match inp.stderr with
       | some s => ["", "# Stderr", "", "```", stripAnsi s, "```"]
       | none => [])
    let lines := lines ++ ["", "# Error details"]
    let lines := lines ++
      errorsForPrompt.flatMap (fun e => ["", "```", stripAnsi e, "```"])
    let lines := lines ++
      (match inp.errorContext with
       | some s => ["", s]
       | none => [])
    let lines := lines ++
      (match inp.frame with
       | some f => ["", "# Test source", "", "```ts", f, "```"]
       | none => [])
    let prompt := joinLines lines
    if 200000 < prompt.length then jsSlice prompt 200000 ++ "\n…(truncated)…"
    else prompt

/-- Input of the chart generator (`ChartData` in
`src/generators/chart-generator.ts`). -/
structure ChartData where
  results : List TestResultData
  history : TestHistory
  startTime : ℚ

/-- `Math.max` over a spread list.  Every call site in the generator
passes a nonempty list; the `[]` case (JS `-Infinity`) is never reached
and the model returns `0` there. -/
def listMax : List ℚ → ℚ
  | [] => 0
  | a :: as => as.foldl max a

/-- Embedded from the source: `generateTrendChart`
(`src/generators/chart-generator.ts`).  `fmtDuration`, `fmtShortDate`
(imported from `../utils`, a module outside the provided sources) and
`numStr` (JavaScript number-to-string used by template interpolation)
are parameters; `nowMs` stands for `Date.now()`.  The history's
`summaries || []` is the identity here because a parsed history always
carries a (possibly empty) summary list. -/
def generateTrendChart (fmtDuration : ℚ → String) (fmtShortDate : ℕ → String)
    (numStr : ℚ → String) (nowMs : ℚ) (data : ChartData) : String :=
  let summaries := data.history.summaries
  if summaries.length < 2 then ""
  else
    let passed := (data.results.filter (fun r => r.status = TestStatus.passed)).length
    let failed := (data.results.filter (fun r =>
      r.status = TestStatus.failed ∨ r.status = TestStatus.timedOut)).length
    let currentFlaky := (data.results.filter (fun r =>
      match r.flakinessScore with
      | some fs => decide (3/10 ≤ fs)
      | none => false)).length
    let currentSlow := (data.results.filter (fun r =>
      (r.performanceTrend.getD "").startsWith "↑")).length
    let currentDuration := nowMs - data.startTime
    let maxBarHeight : ℚ := 80
    let secondaryBarHeight : ℚ := 35
    let allDurations := summaries.map (·.duration) ++ [currentDuration]
    let maxDuration := listMax allDurations
    let allFlaky := summaries.map (·.flaky) ++ [currentFlaky]
    let maxFlaky := allFlaky.foldl max 1
    let allSlow := summaries.map (·.slow) ++ [currentSlow]
    let maxSlow := allSlow.foldl max 1
    let bars := String.join (summaries.map (fun s =>
      let nonSkippedTotal : ℕ := if s.passed + s.failed = 0 then 1 else s.passed + s.failed
      let passedPct := (s.passed : ℚ) / (nonSkippedTotal : ℚ) * 100
      let failedPct := (s.failed : ℚ) / (nonSkippedTotal : ℚ) * 100
      let totalHeight := passedPct + failedPct
      let scaleFactor := if 0 < totalHeight then maxBarHeight / 100 else 1
      let date := fmtShortDate s.timestamp
      "\n      <div class=\"trend-bar-wrapper\">\n        <div class=\"trend-stacked-bar\" style=\"height: " ++
        numStr maxBarHeight ++ "px\">\n          " ++
        (if 0 < failedPct then
          "<div class=\"trend-segment failed\" style=\"height: " ++
            numStr (failedPct * scaleFactor) ++
            "px\"><span class=\"trend-segment-label\">" ++ toString s.failed ++
            " failed</span></div>"
         else "") ++
        "\n          <div class=\"trend-segment passed\" style=\"height: " ++
        numStr (passedPct * scaleFactor) ++
        "px\"><span class=\"trend-segment-label\">" ++ toString s.passed ++
        " passed</span></div>\n        </div>\n        <span class=\"trend-label\">" ++
        date ++ "</span>\n      </div>\n    "))
    let currentNonSkippedTotal : ℕ := if passed + failed = 0 then 1 else passed + failed
    let currentPassedPct := (passed : ℚ) / (currentNonSkippedTotal : ℚ) * 100
    let currentFailedPct := (failed : ℚ) / (currentNonSkippedTotal : ℚ) * 100
    let currentScaleFactor := maxBarHeight / 100
    let currentBar :=
      "\n    <div class=\"trend-bar-wrapper current\">\n      <div class=\"trend-stacked-bar\" style=\"height: " ++
      numStr maxBarHeight ++ "px\">\n        " ++
      (if 0 < currentFailedPct then
        "<div class=\"trend-segment failed\" style=\"height: " ++
          numStr (currentFailedPct * currentScaleFactor) ++
          "px\"><span class=\"trend-segment-label\">" ++ toString failed ++
          " failed</span></div>"
       else "") ++
      "\n        <div class=\"trend-segment passed\" style=\"height: " ++
      numStr (currentPassedPct * currentScaleFactor) ++
      "px\"><span class=\"trend-segment-label\">" ++ toString passed ++
      " passed</span></div>\n      </div>\n      <span class=\"trend-label\">Current</span>\n    </div>\n  "
    let durationBars := String.join (summaries.map (fun s =>
      let duration := s.duration
      let barHeight := if 0 < maxDuration then
        max 4 (duration / maxDuration * secondaryBarHeight) else 4
      "\n      <div class=\"secondary-bar-wrapper\">\n        <div class=\"secondary-bar duration\" style=\"height: " ++
        numStr barHeight ++ "px\" title=\"" ++ fmtDuration duration ++
        "\"></div>\n        <span class=\"secondary-value\">" ++ fmtDuration duration ++
        "</span>\n      </div>\n    "))
    let currentDurationBarHeight := if 0 < maxDuration then
      max 4 (currentDuration / maxDuration * secondaryBarHeight) else 4
    let currentDurationBar :=
      "\n    <div class=\"secondary-bar-wrapper\">\n      <div class=\"secondary-bar duration current\" style=\"height: " ++
      numStr currentDurationBarHeight ++ "px\" title=\"" ++
      fmtDuration currentDuration ++
      "\"></div>\n      <span class=\"secondary-value\">" ++
      fmtDuration currentDuration ++ "</span>\n    </div>\n  "
    let flakyBars := String.join (summaries.map (fun s =>
      let flakyCount := s.flaky
      let barHeight := if 0 < maxFlaky then
        max (if 0 < flakyCount then (4:ℚ) else 0)
          ((flakyCount : ℚ) / maxFlaky * secondaryBarHeight)
        else 0
      "\n      <div class=\"secondary-bar-wrapper\">\n        <div class=\"secondary-bar flaky\" style=\"height: " ++
        numStr barHeight ++ "px\" title=\"" ++ toString flakyCount ++
        " flaky\"></div>\n        <span class=\"secondary-value\">" ++
        toString flakyCount ++ "</span>\n      </div>\n    "))
    let currentFlakyBarHeight := if 0 < maxFlaky then
      max (if 0 < currentFlaky then (4:ℚ) else 0)
        ((currentFlaky : ℚ) / maxFlaky * secondaryBarHeight)
      else 0
    let currentFlakyBar :=
      "\n    <div class=\"secondary-bar-wrapper\">\n      <div class=\"secondary-bar flaky current\" style=\"height: " ++
      numStr currentFlakyBarHeight ++ "px\" title=\"" ++ toString currentFlaky ++
      " flaky\"></div>\n      <span class=\"secondary-value\">" ++
      toString currentFlaky ++ "</span>\n    </div>\n  "
    let slowBars := String.join (summaries.map (fun s =>
      let slowCount := s.slow
      let barHeight := if 0 < maxSlow then
        max (if 0 < slowCount then (4:ℚ) else 0)
          ((slowCount : ℚ) / maxSlow * secondaryBarHeight)
        else 0
      "\n      <div class=\"secondary-bar-wrapper\">\n        <div class=\"secondary-bar slow\" style=\"height: " ++
        numStr barHeight ++ "px\" title=\"" ++ toString slowCount ++
        " slow\"></div>\n        <span class=\"secondary-value\">" ++
        toString slowCount ++ "</span>\n      </div>\n    "))
    let currentSlowBarHeight := if 0 < maxSlow then
      max (if 0 < currentSlow then (4:ℚ) else 0)
        ((currentSlow : ℚ) / maxSlow * secondaryBarHeight)
      else 0
    let currentSlowBar :=
      "\n    <div class=\"secondary-bar-wrapper\">\n      <div class=\"secondary-bar slow current\" style=\"height: " ++
      numStr currentSlowBarHeight ++ "px\" title=\"" ++ toString currentSlow ++
      " slow\"></div>\n      <span class=\"secondary-value\">" ++
      toString currentSlow ++ "</span>\n    </div>\n  "
    "\n    <div class=\"trend-section\">\n      <div class=\"trend-header\">\n        <div class=\"trend-title\">📊 Test Run Trends</div>\n        <div class=\"trend-subtitle\">Last " ++
    toString (summaries.length + 1) ++
    " runs</div>\n      </div>\n      <div class=\"trend-chart\">\n        " ++
    bars ++ "\n        " ++ currentBar ++
    "\n      </div>\n      <div class=\"secondary-trends\">\n        <div class=\"secondary-trend-section\">\n          <div class=\"secondary-trend-header\">\n            <div class=\"secondary-trend-title\">⏱️ Duration</div>\n          </div>\n          <div class=\"secondary-trend-chart\">\n            " ++
    durationBars ++ "\n            " ++ currentDurationBar ++
    "\n          </div>\n        </div>\n        <div class=\"secondary-trend-section\">\n          <div class=\"secondary-trend-header\">\n            <div class=\"secondary-trend-title\">🔴 Flaky</div>\n          </div>\n          <div class=\"secondary-trend-chart\">\n            " ++
    flakyBars ++ "\n            " ++ currentFlakyBar ++
    "\n          </div>\n        </div>\n        <div class=\"secondary-trend-section\">\n          <div class=\"secondary-trend-header\">\n            <div class=\"secondary-trend-title\">🐢 Slow</div>\n          </div>\n          <div class=\"secondary-trend-chart\">\n            " ++
    slowBars ++ "\n            " ++ currentSlowBar ++
    "\n          </div>\n        </div>\n      </div>\n    </div>\n  "

/-- `out` is the retention-capped tail of `pool`: at most `N` entries,
exactly the `N` most recent ones (`out` is a suffix of the stable
ascending sort of `pool`, and everything dropped is no newer than
anything kept), ordered non-decreasing by timestamp. -/
def RecentSuffix {α : Type} (key : α → ℕ) (N : ℕ) (pool out : List α) : Prop :=
  out.length ≤ N ∧
  out.length = min N pool.length ∧
  List.Pairwise (tsLe key) out ∧
  ∃ dropped, sortByTs key pool = dropped ++ out ∧
    ∀ a ∈ dropped, ∀ b ∈ out, key a ≤ key b

theorem recentSuffix_keepLast {α : Type} (key : α → ℕ) (N : ℕ) (pool : List α) :
    RecentSuffix key N pool (keepLast N (sortByTs key pool)) := by
  have hperm := List.perm_insertionSort (tsLe key) pool
  have hsorted : List.Pairwise (tsLe key) (sortByTs key pool) :=
    List.sorted_insertionSort (tsLe key) pool
  have hlen : (sortByTs key pool).length = pool.length := hperm.length_eq
  refine ⟨?_, ?_, ?_, (sortByTs key pool).take ((sortByTs key pool).length - N),
    ?_, ?_⟩
  · show ((sortByTs key pool).drop ((sortByTs key pool).length - N)).length ≤ N
    rw [List.length_drop]
    omega
  · show ((sortByTs key pool).drop ((sortByTs key pool).length - N)).length =
      min N pool.length
    rw [List.length_drop]
    omega
  · exact List.Pairwise.sublist
      (List.drop_sublist ((sortByTs key pool).length - N) (sortByTs key pool))
      hsorted
  · exact (List.take_append_drop ((sortByTs key pool).length - N)
      (sortByTs key pool)).symm
  · intro a ha b hb
    have hb' : b ∈ (sortByTs key pool).drop ((sortByTs key pool).length - N) := hb
    have hsplit := (@List.pairwise_append _ (tsLe key)
      ((sortByTs key pool).take ((sortByTs key pool).length - N))
      ((sortByTs key pool).drop ((sortByTs key pool).length - N))).mp
      (by rw [List.take_append_drop]; exact hsorted)
    exact hsplit.2.2 a ha b hb'

/-- C2: after any `mergeHistories` call with retention cap `N`, the single
written structure's `runs`, every per-test entry sequence, and
`summaries` each hold at most `N` entries, exactly the `N` most recent
by timestamp out of the merged (and, for runs, de-duplicated) pool, in
non-decreasing timestamp order. -/
theorem mergeHistories_retention_ordering_invariant
    (sources : List SourceRead) (N : ℕ) :
    (mergeHistories sources N).writes =
      [reconcileHistories (sources.filterMap SourceRead.parsed) N] ∧
    RecentSuffix (·.timestamp) N
      (dedupeByRunId (allRuns (sources.filterMap SourceRead.parsed)))
      (reconcileHistories (sources.filterMap SourceRead.parsed) N).runs ∧
    List.Forall (fun p => RecentSuffix (·.timestamp) N
      (allEntries (sources.filterMap SourceRead.parsed) p.1) p.2)
      (reconcileHistories (sources.filterMap SourceRead.parsed) N).tests ∧
    RecentSuffix (·.timestamp) N
      (allSummaries (sources.filterMap SourceRead.parsed))
      (reconcileHistories (sources.filterMap SourceRead.parsed) N).summaries := by
  refine ⟨rfl, recentSuffix_keepLast _ _ _, ?_, recentSuffix_keepLast _ _ _⟩
  rw [List.forall_iff_forall_mem]
  intro p hp
  simp only [reconcileHistories] at hp
  obtain ⟨k, _, rfl⟩ := List.mem_map.mp hp
  exact recentSuffix_keepLast _ _ _

theorem dedupeGo_eq_nil {seen : List String} {ys : List RunMeta}
    (h : ∀ y ∈ ys, y.runId ∈ seen) : dedupeByRunId.go seen ys = [] := by
  induction ys with
  | nil => rfl
  | cons y ys ih =>
      simp only [dedupeByRunId.go]
      rw [if_pos (h y (List.mem_cons_self _ _))]
      exact ih (fun z hz => h z (List.mem_cons_of_mem _ hz))

theorem dedupeGo_append (seen : List String) (xs ys : List RunMeta)
    (h : ∀ y ∈ ys, y.runId ∈ seen ∨ y.runId ∈ xs.map RunMeta.runId) :
    dedupeByRunId.go seen (xs ++ ys) = dedupeByRunId.go seen xs := by
  induction xs generalizing seen with
  | nil =>
      simp only [List.nil_append]
      exact dedupeGo_eq_nil (fun y hy => by
        rcases h y hy with h1 | h1
        · exact h1
        · simp at h1)
  | cons r rs ih =>
      simp only [List.cons_append, dedupeByRunId.go]
      by_cases hr : r.runId ∈ seen
      · rw [if_pos hr, if_pos hr]
        refine ih seen (fun y hy => ?_)
        rcases h y hy with h1 | h1
        · exact Or.inl h1
        · rw [List.map_cons] at h1
          rcases List.mem_cons.mp h1 with h2 | h2
          · exact Or.inl (h2 ▸ hr)
          · exact Or.inr h2
      · rw [if_neg hr, if_neg hr]
        congr 1
        refine ih (r.runId :: seen) (fun y hy => ?_)
        rcases h y hy with h1 | h1
        · exact Or.inl (List.mem_cons_of_mem _ h1)
        · rw [List.map_cons] at h1
          rcases List.mem_cons.mp h1 with h2 | h2
          · exact Or.inl (h2 ▸ List.mem_cons_self _ _)
          · exact Or.inr h2

theorem dedupeGo_mem (seen : List String) (xs : List RunMeta) (i : String) :
    i ∈ (dedupeByRunId.go seen xs).map RunMeta.runId ↔
      i ∈ xs.map RunMeta.runId ∧ i ∉ seen := by
  induction xs generalizing seen with
  | nil => simp [dedupeByRunId.go]
  | cons r rs ih =>
      simp only [dedupeByRunId.go]
      by_cases hr : r.runId ∈ seen
      · rw [if_pos hr, ih]
        simp only [List.map_cons, List.mem_cons]
        constructor
        · rintro ⟨h1, h2⟩
          exact ⟨Or.inr h1, h2⟩
        · rintro ⟨h1 | h1, h2⟩
          · exact absurd (h1 ▸ hr) h2
          · exact ⟨h1, h2⟩
      · rw [if_neg hr]
        simp only [List.map_cons, List.mem_cons, ih]
        constructor
        · rintro (rfl | ⟨h1, h2⟩)
          · exact ⟨Or.inl rfl, hr⟩
          · exact ⟨Or.inr h1, fun hs => h2 (Or.inr hs)⟩
        · rintro ⟨h1 | h1, h2⟩
          · exact Or.inl h1
          · by_cases hir : i = r.runId
            · exact Or.inl hir
            · refine Or.inr ⟨h1, fun hs => ?_⟩
              rcases hs with h3 | h3
              · exact hir h3
              · exact h2 h3

theorem dedupeGo_ids_nodup (seen : List String) (xs : List RunMeta) :
    ((dedupeByRunId.go seen xs).map RunMeta.runId).Nodup := by
  induction xs generalizing seen with
  | nil => simp [dedupeByRunId.go]
  | cons r rs ih =>
      simp only [dedupeByRunId.go]
      by_cases hr : r.runId ∈ seen
      · rw [if_pos hr]
        exact ih seen
      · rw [if_neg hr]
        simp only [List.map_cons, List.nodup_cons]
        refine ⟨fun hmem => ?_, ih (r.runId :: seen)⟩
        have := (dedupeGo_mem (r.runId :: seen) rs r.runId).mp hmem
        exact this.2 (List.mem_cons_self _ _)

theorem dedupeByRunId_ids_nodup (xs : List RunMeta) :
    ((dedupeByRunId xs).map RunMeta.runId).Nodup :=
  dedupeGo_ids_nodup [] xs

theorem dedupeByRunId_length (xs : List RunMeta) :
    (dedupeByRunId xs).length = (xs.map RunMeta.runId).toFinset.card := by
  have h1 := dedupeByRunId_ids_nodup xs
  have h2 : ((dedupeByRunId xs).map RunMeta.runId).toFinset =
      (xs.map RunMeta.runId).toFinset := by
    ext i
    simp only [List.mem_toFinset]
    rw [show dedupeByRunId xs = dedupeByRunId.go [] xs from rfl, dedupeGo_mem]
    simp
  calc (dedupeByRunId xs).length
      = ((dedupeByRunId xs).map RunMeta.runId).length := (List.length_map _ _).symm
    _ = ((dedupeByRunId xs).map RunMeta.runId).toFinset.card :=
        (List.toFinset_card_of_nodup h1).symm
    _ = (xs.map RunMeta.runId).toFinset.card := by rw [h2]

/-- C5: merging a source with itself leaves the de-duplicated run list
unchanged, the merged run list is keyed by unique `runId` (no
duplicates), its length is the number of distinct `runId`s capped at
`N`, and a source listing the same `runId` twice merges to a single
run. -/
theorem mergeHistories_idempotent (h : TestHistory) (N : ℕ) :
    (reconcileHistories [h, h] N).runs = (reconcileHistories [h] N).runs ∧
    (mergeHistories [SourceRead.ok h, SourceRead.ok h] N).writes.map
        TestHistory.runs =
      (mergeHistories [SourceRead.ok h] N).writes.map TestHistory.runs ∧
    (reconcileHistories [h] N).runs.length =
      min N (h.runs.map RunMeta.runId).toFinset.card ∧
    ((reconcileHistories [h] N).runs.map RunMeta.runId).Nodup ∧
    (reconcileHistories
        [{ runs := [⟨"run-1", 5⟩, ⟨"run-1", 5⟩], tests := [], summaries := [] }]
        10).runs = [⟨"run-1", 5⟩] := by
  have hall2 : allRuns [h, h] = h.runs ++ h.runs := by simp [allRuns]
  have hall1 : allRuns [h] = h.runs := by simp [allRuns]
  have hdd : dedupeByRunId (h.runs ++ h.runs) = dedupeByRunId h.runs :=
    dedupeGo_append [] h.runs h.runs
      (fun y hy => Or.inr (List.mem_map_of_mem RunMeta.runId hy))
  have hruns : (reconcileHistories [h, h] N).runs =
      (reconcileHistories [h] N).runs := by
    simp only [reconcileHistories, hall2, hall1, hdd]
  refine ⟨hruns, ?_, ?_, ?_, ?_⟩
  · simp only [mergeHistories, List.map]
    rw [show ([SourceRead.ok h, SourceRead.ok h].filterMap SourceRead.parsed) =
      [h, h] from rfl,
      show ([SourceRead.ok h].filterMap SourceRead.parsed) = [h] from rfl, hruns]
  · have := (recentSuffix_keepLast (·.timestamp) N
      (dedupeByRunId (allRuns [h]))).2.1
    show (keepLast N (sortByTs (·.timestamp) (dedupeByRunId (allRuns [h])))).length
      = min N (h.runs.map RunMeta.runId).toFinset.card
    rw [this, hall1, dedupeByRunId_length]
  · have nd0 := dedupeByRunId_ids_nodup (allRuns [h])
    have hperm : ((sortByTs (·.timestamp) (dedupeByRunId (allRuns [h]))).map
        RunMeta.runId).Perm ((dedupeByRunId (allRuns [h])).map RunMeta.runId) :=
      (List.perm_insertionSort _ _).map _
    have ndSort := hperm.symm.nodup nd0
    show ((keepLast N (sortByTs (·.timestamp)
      (dedupeByRunId (allRuns [h])))).map RunMeta.runId).Nodup
    exact List.Nodup.sublist ((List.drop_sublist _ _).map _) ndSort
  · rfl

/-- The empty but well-formed history structure. -/
def emptyHistory : TestHistory := { runs := [], tests := [], summaries := [] }

/-- C6: `mergeHistories` is a total function of the per-source read
outcomes (nothing is fatal): the destination receives exactly one write,
of the fully reconciled structure; a missing source only adds a warning
and an unparseable source only adds an error, neither changes the
written result relative to skipping that source; and with zero surviving
sources the single write is the complete empty structure. -/
theorem mergeHistories_fault_tolerant (sources rest : List SourceRead) (N : ℕ) :
    (mergeHistories sources N).writes =
      [reconcileHistories (sources.filterMap SourceRead.parsed) N] ∧
    reconcileHistories [] N = emptyHistory ∧
    (sources.filterMap SourceRead.parsed = [] →
      (mergeHistories sources N).writes = [emptyHistory]) ∧
    (mergeHistories (SourceRead.missing :: rest) N).writes =
      (mergeHistories rest N).writes ∧
    (mergeHistories (SourceRead.missing :: rest) N).warnings =
      (mergeHistories rest N).warnings + 1 ∧
    (mergeHistories (SourceRead.missing :: rest) N).errors =
      (mergeHistories rest N).errors ∧
    (mergeHistories (SourceRead.unparseable :: rest) N).writes =
      (mergeHistories rest N).writes ∧
    (mergeHistories (SourceRead.unparseable :: rest) N).errors =
      (mergeHistories rest N).errors + 1 ∧
    (mergeHistories (SourceRead.unparseable :: rest) N).warnings =
      (mergeHistories rest N).warnings := by
  have hempty : reconcileHistories [] N = emptyHistory := by
    simp [reconcileHistories, emptyHistory, allRuns, allSummaries, allTestIds,
      allTestIds.go, dedupeByRunId, dedupeByRunId.go, sortByTs, keepLast,
      List.insertionSort]
  refine ⟨rfl, hempty, ?_, ?_, ?_, ?_, ?_, ?_, ?_⟩
  · intro hzero
    simp only [mergeHistories, hzero, hempty]
  · simp only [mergeHistories, List.filterMap_cons]
    rfl
  · simp only [mergeHistories, List.filter_cons]
    norm_num
  · simp only [mergeHistories, List.filter_cons]
    rw [if_neg (by decide)]
  · simp only [mergeHistories, List.filterMap_cons]
    rfl
  · simp only [mergeHistories, List.filter_cons]
    norm_num
  · simp only [mergeHistories, List.filter_cons]
    rw [if_neg (by decide)]

/-- C3: `scoreTest` computes
`overall = round(flakiness×0.4 + performance×0.3 + reliability×0.3)`
with `flakiness = 100×(1 − flakinessScore)` defaulting to `100` when the
score is absent; for `flakinessScore = 0.5`, stable performance and a
clean pass this gives overall `77`, grade `C`, `needsAttention = false`
at threshold `70`. -/
theorem stabilityScorer_overall_formula (t : TestResultData) (threshold : ℤ) :
    (StabilityScorer.scoreTest t threshold).overall =
      jsRound (StabilityScorer.flakinessComponent t * (4/10) +
        StabilityScorer.performanceComponent t * (3/10) +
        StabilityScorer.reliabilityComponent t * (3/10)) ∧
    (∀ fs, t.flakinessScore = some fs →
      StabilityScorer.flakinessComponent t = 100 * (1 - fs)) ∧
    (t.flakinessScore = none → StabilityScorer.flakinessComponent t = 100) ∧
    (StabilityScorer.scoreTest
        { testId := "test-1", title := "Test 1", file := "test.spec.ts",
          status := TestStatus.passed, duration := 1000, retry := 0,
          flakinessScore := some (1/2),
          retryInfo := some ⟨0, -1, 0, [true], false⟩,
          performanceMetrics :=
            some ⟨1000, 1000, 0, 0, 1/5, false, false, Severity.low⟩ } 70) =
      { overall := 77, flakiness := 50, performance := 90, reliability := 100,
        grade := Grade.C, needsAttention := false } := by
  refine ⟨rfl, ?_, ?_, ?_⟩
  · intro fs hfs
    simp [StabilityScorer.flakinessComponent, hfs]
  · intro hfs
    simp [StabilityScorer.flakinessComponent, hfs]
  · have hov : jsRound ((50 : ℚ) * (4/10) + 90 * (3/10) + 100 * (3/10)) = 77 := by
      norm_num [jsRound]
    simp only [StabilityScorer.scoreTest, StabilityScorer.flakinessComponent,
      StabilityScorer.performanceComponent, StabilityScorer.reliabilityComponent,
      StabilityScorer.totalRetriesOf, StabilityScorer.gradeOf]
    norm_num [jsRound, StabilityScore.mk.injEq, StabilityScorer.gradeOf]

/-- C3 witness: the overall formula and the flakiness default, applied at
the claim's concrete example. -/
theorem stabilityScorer_overall_formula_witness :
    StabilityScorer.flakinessComponent
      { testId := "test-1", title := "Test 1", file := "test.spec.ts",
        status := TestStatus.passed, duration := 1000, retry := 0,
        flakinessScore := some (1/2) } = 100 * (1 - 1/2) :=
  (stabilityScorer_overall_formula
    { testId := "test-1", title := "Test 1", file := "test.spec.ts",
      status := TestStatus.passed, duration := 1000, retry := 0,
      flakinessScore := some (1/2) } 70).2.1 (1/2) rfl

/-- C8: `RetryAnalyzer.analyze` sets `needsAttention` exactly when the
current retry count reaches the threshold or more than half of the
historical entries recorded at least one retry; in particular a clean
pass whose history shows 3 of 4 retried entries is flagged. -/
theorem retryAnalyzer_needsAttention_iff (t : TestResultData)
    (history : List TestHistoryEntry) (threshold : ℕ) :
    ((RetryAnalyzer.analyze t history threshold).needsAttention = true ↔
      threshold ≤ t.retry ∨
        history.length < 2 * RetryAnalyzer.retriedCount history) ∧
    (RetryAnalyzer.analyze
        { testId := "test-1", title := "Test 1", file := "test.spec.ts",
          status := TestStatus.passed, duration := 1000, retry := 0 }
        [⟨true, 1000, 0, some 1, none⟩, ⟨true, 1000, 1, some 2, none⟩,
         ⟨true, 1000, 2, some 1, none⟩, ⟨true, 1000, 3, some 0, none⟩]
        3).needsAttention = true ∧
    RetryAnalyzer.retriedCount
      [⟨true, 1000, 0, some 1, none⟩, ⟨true, 1000, 1, some 2, none⟩,
       ⟨true, 1000, 2, some 1, none⟩, ⟨true, 1000, 3, some 0, none⟩] = 3 := by
  refine ⟨?_, by decide, by decide⟩
  simp [RetryAnalyzer.analyze]

/-- C1 counterexample: with history average `1000` and current duration
`1500` at the default threshold, `percentChange = 50` and the analyzer
reports severity `medium`, not `high` — the repository's own test
(`performance-analyzer.test.ts`, "marks slower tests") pins `'medium'`
at exactly 50%, so the claim's `|percentChange| ≥ 50 ⇒ high` boundary is
wrong at 50. -/
theorem performanceAnalyzer_severity_counterexample :
    ((PerformanceAnalyzer.analyze
        { testId := "test-1", title := "Test 1", file := "test.spec.ts",
          status := TestStatus.passed, duration := 1500, retry := 0 }
        [⟨true, 1000, 0, none, some false⟩] (1/5)).performanceMetrics.map
      (fun m => (m.percentChange, m.severity))) = some (50, Severity.medium) ∧
    Severity.medium ≠ Severity.high ∧
    (PerformanceAnalyzer.analyze
        { testId := "test-1", title := "Test 1", file := "test.spec.ts",
          status := TestStatus.passed, duration := 1500, retry := 0 }
        [⟨true, 1000, 0, none, some false⟩] (1/5)).performanceTrend =
      "↑ 50% slower" := by
  refine ⟨?_, by decide, ?_⟩
  · norm_num [PerformanceAnalyzer.analyze, FlakinessAnalyzer.usableHistory,
      TestHistoryEntry.isSkipped, PerformanceAnalyzer.severityOf, List.filter]
    exact ⟨_, rfl, rfl, rfl⟩
  · norm_num [PerformanceAnalyzer.analyze, FlakinessAnalyzer.usableHistory,
      TestHistoryEntry.isSkipped, List.filter, jsRound]
    rw [if_neg (by decide)]
    decide

/-- C1 (amended): for every test with a usable baseline the reported
severity is `low` when `|percentChange| < 25`, `medium` when
`25 ≤ |percentChange| ≤ 50`, and `high` when `|percentChange| > 50`
(the spec's `≥ 50 ⇒ high` boundary moves up by the counterexample at
exactly 50, where the analyzer's unit tests pin `medium`). -/
theorem performanceAnalyzer_severity_bands (t : TestResultData)
    (history : List TestHistoryEntry) (threshold : ℚ)
    (h1 : t.status ≠ TestStatus.skipped)
    (h2 : FlakinessAnalyzer.usableHistory history ≠ []) :
    ∃ m, (PerformanceAnalyzer.analyze t history threshold).performanceMetrics =
        some m ∧
      (|m.percentChange| < 25 → m.severity = Severity.low) ∧
      (25 ≤ |m.percentChange| → |m.percentChange| ≤ 50 →
        m.severity = Severity.medium) ∧
      (50 < |m.percentChange| → m.severity = Severity.high) := by
  simp only [PerformanceAnalyzer.analyze]
  rw [if_neg h1]
  have hne : (FlakinessAnalyzer.usableHistory history).isEmpty = false := by
    cases hh : (FlakinessAnalyzer.usableHistory history).isEmpty
    · rfl
    · exact absurd (List.isEmpty_iff.mp hh) h2
  rw [if_neg (by simp [hne])]
  refine ⟨_, rfl, ?_, ?_, ?_⟩
  · intro hlt
    simp only [PerformanceAnalyzer.severityOf]
    rw [if_pos hlt]
  · intro hge hle
    simp only [PerformanceAnalyzer.severityOf]
    rw [if_neg (by linarith), if_pos hle]
  · intro hgt
    simp only [PerformanceAnalyzer.severityOf]
    rw [if_neg (by linarith), if_neg (by linarith)]

/-- C1 witness: the amended bands applied at the concrete example
(average `1000`, current `1500`), whose percent change is exactly 50 and
lands in the medium band. -/
theorem performanceAnalyzer_severity_bands_witness :
    ∃ m, (PerformanceAnalyzer.analyze
        { testId := "test-1", title := "Test 1", file := "test.spec.ts",
          status := TestStatus.passed, duration := 1500, retry := 0 }
        [⟨true, 1000, 0, none, some false⟩] (1/5)).performanceMetrics =
      some m ∧ m.severity = Severity.medium := by
  obtain ⟨m, hm, _, hmed, _⟩ := performanceAnalyzer_severity_bands
    { testId := "test-1", title := "Test 1", file := "test.spec.ts",
      status := TestStatus.passed, duration := 1500, retry := 0 }
    [⟨true, 1000, 0, none, some false⟩] (1/5) (by decide) (by decide)
  have hpc : (PerformanceAnalyzer.analyze
      { testId := "test-1", title := "Test 1", file := "test.spec.ts",
        status := TestStatus.passed, duration := 1500, retry := 0 }
      [⟨true, 1000, 0, none, some false⟩] (1/5)).performanceMetrics.map
        (·.percentChange) = some 50 := by
    norm_num [PerformanceAnalyzer.analyze, FlakinessAnalyzer.usableHistory,
      TestHistoryEntry.isSkipped, List.filter]
    exact ⟨_, rfl, rfl⟩
  rw [hm] at hpc
  have hpc2 : m.percentChange = 50 := by simpa using hpc
  exact ⟨m, hm, hmed (by rw [hpc2]; norm_num) (by rw [hpc2]; norm_num)⟩

/-- C4 counterexample: for a failed test with `retry = 0`,
`getRetrySummary` returns `"No retries"` (the zero-retry branch fires
first), not `"Failed after 1 attempts"` as the claim's unqualified
failed/timedOut case demands. -/
theorem retryAnalyzer_summary_counterexample :
    RetryAnalyzer.getRetrySummary
      { testId := "test-1", title := "Test 1", file := "test.spec.ts",
        status := TestStatus.failed, duration := 1000, retry := 0,
        retryInfo := some (RetryAnalyzer.analyze
          { testId := "test-1", title := "Test 1", file := "test.spec.ts",
            status := TestStatus.failed, duration := 1000, retry := 0 } [] 3) } =
      "No retries" ∧
    "No retries" ≠ "Failed after 1 attempts" := by
  constructor
  · decide
  · decide

/-- C4 (amended): `retryPattern` has length `retry + 1` and is all
`false` except the last element, which is true iff the status is
`passed`; a passed test with `retry > 0` gets `passedOnRetry = retry`,
`failedRetries = 0` and summary `"Passed on retry {r+1}/{r+1}"`; a
failed or timedOut test gets `passedOnRetry = −1`, `failedRetries =
retry`, and summary `"Failed after {r+1} attempts"` when `retry > 0` —
with `retry = 0` the summary is `"No retries"` (the only change the
counterexample forces). -/
theorem retryAnalyzer_analyze_spec (t : TestResultData)
    (history : List TestHistoryEntry) (threshold : ℕ) :
    (RetryAnalyzer.analyze t history threshold).totalRetries = t.retry ∧
    (RetryAnalyzer.analyze t history threshold).retryPattern =
      List.replicate t.retry false ++ [decide (t.status = TestStatus.passed)] ∧
    (RetryAnalyzer.analyze t history threshold).retryPattern.length =
      t.retry + 1 ∧
    (t.status = TestStatus.passed → 0 < t.retry →
      (RetryAnalyzer.analyze t history threshold).passedOnRetry = t.retry ∧
      (RetryAnalyzer.analyze t history threshold).failedRetries = 0 ∧
      RetryAnalyzer.getRetrySummary
          { t with retryInfo := some (RetryAnalyzer.analyze t history threshold) } =
        "Passed on retry " ++ toString (t.retry + 1) ++ "/" ++
          toString (t.retry + 1)) ∧
    ((t.status = TestStatus.failed ∨ t.status = TestStatus.timedOut) →
      (RetryAnalyzer.analyze t history threshold).passedOnRetry = -1 ∧
      (RetryAnalyzer.analyze t history threshold).failedRetries = t.retry ∧
      (0 < t.retry →
        RetryAnalyzer.getRetrySummary
            { t with retryInfo := some (RetryAnalyzer.analyze t history threshold) } =
          "Failed after " ++ toString (t.retry + 1) ++ " attempts") ∧
      (t.retry = 0 →
        RetryAnalyzer.getRetrySummary
            { t with retryInfo := some (RetryAnalyzer.analyze t history threshold) } =
          "No retries")) := by
  have hsum : ∀ ri : RetryInfo,
      RetryAnalyzer.getRetrySummary { t with retryInfo := some ri } =
        if ri.totalRetries = 0 then "No retries"
        else if 0 ≤ ri.passedOnRetry then
          "Passed on retry " ++ toString (ri.passedOnRetry + 1) ++ "/" ++
            toString (ri.totalRetries + 1)
        else "Failed after " ++ toString (ri.totalRetries + 1) ++ " attempts" :=
    fun _ => rfl
  have htot : (RetryAnalyzer.analyze t history threshold).totalRetries =
      t.retry := rfl
  refine ⟨rfl, rfl, ?_, ?_, ?_⟩
  · simp [RetryAnalyzer.analyze]
  · intro hpass hr
    have hp : (RetryAnalyzer.analyze t history threshold).passedOnRetry =
        (t.retry : ℤ) := by
      simp [RetryAnalyzer.analyze, hpass, hr]
    refine ⟨hp, ?_, ?_⟩
    · simp [RetryAnalyzer.analyze, hpass]
    · rw [hsum, htot, hp, if_neg (by omega), if_pos (by omega)]
      rfl
  · intro hfail
    have hp2 : (RetryAnalyzer.analyze t history threshold).passedOnRetry = -1 := by
      rcases hfail with h | h <;> simp [RetryAnalyzer.analyze, h]
    have hf : (RetryAnalyzer.analyze t history threshold).failedRetries =
        t.retry := by
      rcases hfail with h | h <;> simp [RetryAnalyzer.analyze, h]
    refine ⟨hp2, hf, ?_, ?_⟩
    · intro hr
      rw [hsum, htot, hp2, if_neg (by omega), if_neg (by omega)]
    · intro hr0
      rw [hsum, htot, hr0, if_pos rfl]

/-- C4 witness: the amended retry facts at the claim's example
(`retry = 2`, status `passed`): pattern `[false, false, true]` and
summary `"Passed on retry 3/3"`. -/
theorem retryAnalyzer_analyze_spec_witness :
    (RetryAnalyzer.analyze
        { testId := "test-1", title := "Test 1", file := "test.spec.ts",
          status := TestStatus.passed, duration := 1000, retry := 2 } [] 3).retryPattern
      = [false, false, true] ∧
    RetryAnalyzer.getRetrySummary
        { ({ testId := "test-1", title := "Test 1", file := "test.spec.ts",
             status := TestStatus.passed, duration := 1000, retry := 2 } : TestResultData) with
          retryInfo := some (RetryAnalyzer.analyze
            { testId := "test-1", title := "Test 1", file := "test.spec.ts",
              status := TestStatus.passed, duration := 1000, retry := 2 } [] 3) }
      = "Passed on retry 3/3" := by
  obtain ⟨-, hpat, -, hpassed, -⟩ := retryAnalyzer_analyze_spec
    { testId := "test-1", title := "Test 1", file := "test.spec.ts",
      status := TestStatus.passed, duration := 1000, retry := 2 } [] 3
  obtain ⟨-, -, hsum⟩ := hpassed rfl (by decide)
  exact ⟨by rw [hpat]; decide, hsum.trans (by decide)⟩

theorem string_length_eq_zero_iff (s : String) : s.length = 0 ↔ s = "" := by
  rw [String.ext_iff]
  exact List.length_eq_zero

theorem append_ne_empty_left (s t : String) (h : s ≠ "") : s ++ t ≠ "" := by
  intro hc
  have hlen : (s ++ t).length = 0 := by rw [hc]; rfl
  rw [String.length_append] at hlen
  exact h ((string_length_eq_zero_iff s).mp (by omega))

theorem jsRound_nonneg {x : ℚ} (h : 0 ≤ x) : 0 ≤ jsRound x :=
  Int.le_floor.mpr (by push_cast; linarith)

theorem jsRound_le_100 {x : ℚ} (h : x ≤ 100) : jsRound x ≤ 100 := by
  have h1 : jsRound x ≤ ⌊(100 : ℚ) + 1/2⌋ := Int.floor_le_floor (by linarith)
  have h2 : ⌊(100 : ℚ) + 1/2⌋ = 100 := by norm_num
  omega

/-- A well-formed per-test record: a recorded flakiness score lies in
`[0, 1]` (it is a proportion of historical failures). -/
def WellFormedResult (t : TestResultData) : Prop :=
  ∀ fs, t.flakinessScore = some fs → 0 ≤ fs ∧ fs ≤ 1

/-- C7: every analyzer entry point is a total function of its inputs and
produces valid values: a defined flakiness score lies in `[0,1]`; the
performance trend is always a nonempty marker string and an empty usable
history yields the neutral `Baseline` outcome; the retry pattern always
has `retry + 1` attempts; retry rates lie in `[0,1]` and are `0` on the
empty set; every stability component and the overall score lie in
`[0,100]`; and suite stats on an empty result set are all zero. -/
theorem analyzers_total_and_neutral (t : TestResultData)
    (history : List TestHistoryEntry) (results : List TestResultData)
    (threshold : ℚ) (rthreshold : ℕ) (sthreshold : ℤ)
    (hwf : WellFormedResult t) :
    (∀ q, FlakinessAnalyzer.analyze t history = some q → 0 ≤ q ∧ q ≤ 1) ∧
    (PerformanceAnalyzer.analyze t history threshold).performanceTrend ≠ "" ∧
    (t.status ≠ TestStatus.skipped → FlakinessAnalyzer.usableHistory history = [] →
      PerformanceAnalyzer.analyze t history threshold =
        ⟨"→ Baseline", none, none⟩) ∧
    (RetryAnalyzer.analyze t history rthreshold).retryPattern.length =
      t.retry + 1 ∧
    (0 ≤ RetryAnalyzer.calculateRetryRate results ∧
      RetryAnalyzer.calculateRetryRate results ≤ 1) ∧
    RetryAnalyzer.calculateRetryRate [] = 0 ∧
    (0 ≤ (StabilityScorer.scoreTest t sthreshold).flakiness ∧
      (StabilityScorer.scoreTest t sthreshold).flakiness ≤ 100) ∧
    (0 ≤ (StabilityScorer.scoreTest t sthreshold).performance ∧
      (StabilityScorer.scoreTest t sthreshold).performance ≤ 100) ∧
    (0 ≤ (StabilityScorer.scoreTest t sthreshold).reliability ∧
      (StabilityScorer.scoreTest t sthreshold).reliability ≤ 100) ∧
    (0 ≤ (StabilityScorer.scoreTest t sthreshold).overall ∧
      (StabilityScorer.scoreTest t sthreshold).overall ≤ 100) ∧
    StabilityScorer.calculateSuiteStats [] =
      { total := 0, passed := 0, failed := 0, skipped := 0, flaky := 0,
        slow := 0, passRate := 0, averageStability := 0 } := by
  have hflak : 0 ≤ StabilityScorer.flakinessComponent t ∧
      StabilityScorer.flakinessComponent t ≤ 100 := by
    cases hfs : t.flakinessScore with
    | none => simp [StabilityScorer.flakinessComponent, hfs]
    | some fs =>
        obtain ⟨h0, h1⟩ := hwf fs hfs
        simp only [StabilityScorer.flakinessComponent, hfs]
        constructor <;> nlinarith
  have hperf : 0 ≤ StabilityScorer.performanceComponent t ∧
      StabilityScorer.performanceComponent t ≤ 100 := by
    cases hm : t.performanceMetrics with
    | none => simp only [StabilityScorer.performanceComponent, hm]; norm_num
    | some m =>
        simp only [StabilityScorer.performanceComponent, hm]
        split_ifs
        · norm_num
        · cases m.severity <;> norm_num
        · norm_num
  have hrel : 0 ≤ StabilityScorer.reliabilityComponent t ∧
      StabilityScorer.reliabilityComponent t ≤ 100 := by
    cases hst : t.status with
    | passed =>
        simp only [StabilityScorer.reliabilityComponent, hst]
        refine ⟨le_max_left _ _, max_le (by norm_num) ?_⟩
        have h15 : (0:ℚ) ≤ 15 * (StabilityScorer.totalRetriesOf t : ℚ) := by
          positivity
        linarith
    | failed =>
        simp only [StabilityScorer.reliabilityComponent, hst]
        refine ⟨le_max_left _ _, max_le (by norm_num) ?_⟩
        have h30 : (0:ℚ) ≤ 30 * (StabilityScorer.failedRetriesOf t : ℚ) := by
          positivity
        linarith
    | timedOut =>
        simp only [StabilityScorer.reliabilityComponent, hst]
        refine ⟨le_max_left _ _, max_le (by norm_num) ?_⟩
        have h30 : (0:ℚ) ≤ 30 * (StabilityScorer.failedRetriesOf t : ℚ) := by
          positivity
        linarith
    | skipped => simp only [StabilityScorer.reliabilityComponent, hst]; norm_num
  refine ⟨?_, ?_, ?_, ?_, ?_, rfl, hflak, hperf, hrel, ?_, ?_⟩
  · intro q hq
    unfold FlakinessAnalyzer.analyze at hq
    by_cases he : (FlakinessAnalyzer.usableHistory history).isEmpty
    · rw [if_pos he] at hq
      simp at hq
    · rw [if_neg he] at hq
      simp only [Option.some.injEq] at hq
      have hpos : 0 < (FlakinessAnalyzer.usableHistory history).length := by
        cases hl : FlakinessAnalyzer.usableHistory history with
        | nil => rw [hl] at he; simp at he
        | cons a l => simp
      have hle : ((FlakinessAnalyzer.usableHistory history).filter
          (fun e => !e.passed)).length ≤
          (FlakinessAnalyzer.usableHistory history).length :=
        List.length_filter_le _ _
      subst hq
      constructor
      · positivity
      · rw [div_le_one (by exact_mod_cast hpos)]
        exact_mod_cast hle
  · unfold PerformanceAnalyzer.analyze
    by_cases hs : t.status = TestStatus.skipped
    · rw [if_pos hs]; decide
    · rw [if_neg hs]
      by_cases he : (FlakinessAnalyzer.usableHistory history).isEmpty
      · rw [if_pos he]; decide
      · rw [if_neg he]
        simp only
        split
        · exact append_ne_empty_left _ _ (append_ne_empty_left _ _ (by decide))
        · split
          · exact append_ne_empty_left _ _ (append_ne_empty_left _ _ (by decide))
          · decide
  · intro hs he
    unfold PerformanceAnalyzer.analyze
    rw [if_neg hs, if_pos (by rw [he]; rfl)]
  · simp [RetryAnalyzer.analyze]
  · unfold RetryAnalyzer.calculateRetryRate
    by_cases he : results.isEmpty
    · rw [if_pos he]; norm_num
    · rw [if_neg he]
      have hpos : 0 < results.length := by
        cases hl : results with
        | nil => rw [hl] at he; simp at he
        | cons a l => simp
      have hle : (results.filter (fun t => 0 < t.retry)).length ≤
          results.length := List.length_filter_le _ _
      constructor
      · positivity
      · rw [div_le_one (by exact_mod_cast hpos)]
        exact_mod_cast hle
  · have hcomb : 0 ≤ StabilityScorer.flakinessComponent t * (4/10) +
        StabilityScorer.performanceComponent t * (3/10) +
        StabilityScorer.reliabilityComponent t * (3/10) ∧
        StabilityScorer.flakinessComponent t * (4/10) +
        StabilityScorer.performanceComponent t * (3/10) +
        StabilityScorer.reliabilityComponent t * (3/10) ≤ 100 := by
      obtain ⟨a1, a2⟩ := hflak
      obtain ⟨b1, b2⟩ := hperf
      obtain ⟨c1, c2⟩ := hrel
      constructor <;> linarith
    exact ⟨jsRound_nonneg hcomb.1, jsRound_le_100 hcomb.2⟩
  · rfl

/-- C7 witness: totality and bounds applied to a concrete well-formed
record (flakiness score `0.5`) with empty history and empty suite. -/
theorem analyzers_total_and_neutral_witness :
    (0 ≤ (StabilityScorer.scoreTest
        { testId := "test-1", title := "Test 1", file := "test.spec.ts",
          status := TestStatus.passed, duration := 1000, retry := 0,
          flakinessScore := some (1/2) } 70).overall ∧
      (StabilityScorer.scoreTest
        { testId := "test-1", title := "Test 1", file := "test.spec.ts",
          status := TestStatus.passed, duration := 1000, retry := 0,
          flakinessScore := some (1/2) } 70).overall ≤ 100) ∧
    RetryAnalyzer.calculateRetryRate [] = 0 := by
  obtain ⟨-, -, -, -, -, hrate, -, -, -, hov, -⟩ :=
    analyzers_total_and_neutral
      { testId := "test-1", title := "Test 1", file := "test.spec.ts",
        status := TestStatus.passed, duration := 1000, retry := 0,
        flakinessScore := some (1/2) }
      [] [] (1/5) 3 70
      (by
        intro fs h
        have h2 : (1/2 : ℚ) = fs := Option.some.inj h
        rw [← h2]
        norm_num)
  exact ⟨hov, hrate⟩

theorem jsIncludes_self (s : String) : jsIncludes s s = true := by
  simp [jsIncludes, List.infix_refl]

theorem mem_foldl_filter {α β : Type} (p : α → β → Bool) (l : List α)
    (init : List β) (x : β) :
    x ∈ l.foldl (fun acc e => acc.filter (fun c => p e c)) init ↔
      x ∈ init ∧ ∀ e ∈ l, p e x = true := by
  induction l generalizing init with
  | nil => simp
  | cons a l ih =>
      simp only [List.foldl_cons, ih, List.mem_filter]
      constructor
      · rintro ⟨⟨h1, h2⟩, h3⟩
        refine ⟨h1, fun e he => ?_⟩
        rcases List.mem_cons.mp he with rfl | he2
        · exact h2
        · exact h3 e he2
      · rintro ⟨h1, h2⟩
        exact ⟨⟨h1, h2 a (List.mem_cons_self _ _)⟩,
          fun e he => h2 e (List.mem_cons_of_mem _ he)⟩

theorem dedupFirst_go_subset {seen l : List String} {x : String}
    (h : x ∈ dedupFirst.go seen l) : x ∈ l := by
  induction l generalizing seen with
  | nil => simp [dedupFirst.go] at h
  | cons a l ih =>
      simp only [dedupFirst.go] at h
      by_cases ha : a ∈ seen
      · rw [if_pos ha] at h
        exact List.mem_cons_of_mem _ (ih h)
      · rw [if_neg ha] at h
        rcases List.mem_cons.mp h with rfl | h2
        · exact List.mem_cons_self _ _
        · exact List.mem_cons_of_mem _ (ih h2)

/-- In `pickCopyPromptErrors` the one-line candidate set is always fully
deleted — the deletion loop runs each error against every candidate, and
a string includes itself — so exactly the nonempty multiline errors
survive. -/
theorem pickCopyPromptErrors_eq (formattedErrors : List String) :
    pickCopyPromptErrors formattedErrors =
      formattedErrors.filter (fun m => decide (m ≠ "") && isMultiline m) := by
  simp only [pickCopyPromptErrors]
  have hsurvivors : formattedErrors.foldl
      (fun ol e => ol.filter (fun c => !(jsIncludes e c)))
      (dedupFirst (formattedErrors.filter
        (fun m => decide (m ≠ "") && !(isMultiline m)))) = [] := by
    apply List.eq_nil_iff_forall_not_mem.mpr
    intro x hx
    rw [mem_foldl_filter (fun e c => !(jsIncludes e c))] at hx
    obtain ⟨hinit, hall⟩ := hx
    have hxl : x ∈ formattedErrors :=
      (List.mem_filter.mp (dedupFirst_go_subset hinit)).1
    have hself := hall x hxl
    rw [jsIncludes_self] at hself
    simp at hself
  rw [hsurvivors]
  apply List.filter_congr
  intro m _
  simp

theorem jsSlice_length (s : String) (n : ℕ) :
    (jsSlice s n).length = min n s.length := by
  show (s.data.take n).length = min n s.length
  rw [List.length_take]
  rfl

theorem joinLines_head_le (a : String) (rest : List String) :
    a.length ≤ (joinLines (a :: rest)).length := by
  cases rest with
  | nil => simp [joinLines]
  | cons b bs =>
      simp only [joinLines, String.length_append]
      omega

/-- C9: `buildPlaywrightStyleAiPrompt` returns the empty string exactly
when no formatted errors survive `pickCopyPromptErrors` (which keeps
every nonempty multiline error, and keeps a one-line error only if no
other formatted error includes it — in fact never, since every string
includes itself); any non-empty prompt has length at most `200000` plus
the 14-character truncation marker. -/
theorem buildPlaywrightStyleAiPrompt_spec (inp : PromptInputs) :
    (buildPlaywrightStyleAiPrompt inp = "" ↔
      pickCopyPromptErrors inp.formattedErrors = []) ∧
    (buildPlaywrightStyleAiPrompt inp).length ≤ 200000 + 14 ∧
    pickCopyPromptErrors inp.formattedErrors =
      inp.formattedErrors.filter (fun m => decide (m ≠ "") && isMultiline m) := by
  refine ⟨?_, ?_, pickCopyPromptErrors_eq _⟩
  · by_cases he : (pickCopyPromptErrors inp.formattedErrors).isEmpty
    · refine ⟨fun _ => List.isEmpty_iff.mp he, fun _ => ?_⟩
      simp only [buildPlaywrightStyleAiPrompt]
      rw [if_pos he]
    · have hne : pickCopyPromptErrors inp.formattedErrors ≠ [] := by
        intro hc
        rw [hc] at he
        simp at he
      refine ⟨fun hc => absurd hc ?_, fun hc => absurd hc hne⟩
      simp only [buildPlaywrightStyleAiPrompt]
      rw [if_neg he]
      split
      · intro hc
        have hl := congrArg String.length hc
        rw [String.length_append] at hl
        have hm : ("\n…(truncated)…" : String).length = 14 := by decide
        have hz : ("" : String).length = 0 := rfl
        omega
      · intro hc
        have hl := congrArg String.length hc
        simp only [List.cons_append, List.nil_append, joinLines,
          String.length_append] at hl
        have hpos : PLAYWRIGHT_COPY_PROMPT_INSTRUCTIONS.length = 169 := rfl
        have hz : ("" : String).length = 0 := rfl
        omega
  · simp only [buildPlaywrightStyleAiPrompt]
    split
    · have hz : ("" : String).length = 0 := rfl
      omega
    · split
      · rw [String.length_append, jsSlice_length]
        have hm : ("\n…(truncated)…" : String).length = 14 := by decide
        omega
      case isFalse h200 =>
        omega

/-- C10: `generateTrendChart` returns the empty string exactly when the
history holds fewer than two run summaries — a trend section is produced
only with at least two prior summaries — for every choice of the
formatting helpers. -/
theorem generateTrendChart_gate (fmtDuration : ℚ → String)
    (fmtShortDate : ℕ → String) (numStr : ℚ → String) (nowMs : ℚ)
    (data : ChartData) :
    generateTrendChart fmtDuration fmtShortDate numStr nowMs data = "" ↔
      data.history.summaries.length < 2 := by
  by_cases h : data.history.summaries.length < 2
  · simp only [generateTrendChart]
    rw [if_pos h]
    simp [h]
  · simp only [generateTrendChart]
    rw [if_neg h]
    refine iff_of_false ?_ h
    intro hc
    have hl := congrArg String.length hc
    simp only [String.length_append] at hl
    have hpos : ("\n    <div class=\"trend-section\">\n      <div class=\"trend-header\">\n        <div class=\"trend-title\">📊 Test Run Trends</div>\n        <div class=\"trend-subtitle\">Last " : String).length = 164 := rfl
    have hz : ("" : String).length = 0 := rfl
    omega
